import Mathlib

/-!
Verification of the MPAS bootstrap installer (package `bootstrap`, plus the
`options`/`setDefaults` machinery) against its natural-language specification.
The Go source is shallowly embedded: strings are lists of characters, fallible
calls return `Except`, external capabilities (the OCM repository client, the
Masterminds semver library, the git transport, kustomize, the cluster client)
are parameters or oracle fields, and a Go runtime panic is modelled as `none`
in an `Option`-valued result.
-/

namespace MPAS

/-- Go strings, modelled as lists of characters. -/
abbrev Str := List Char

/-- Go `strings.Split` with a one-character separator: splits the list at every
occurrence of `sep`; the separator is not part of any piece; the result is
never empty. -/
def splitOnChar (sep : Char) : Str → List Str
  | [] => [[]]
  | c :: rest =>
    if c = sep then [] :: splitOnChar sep rest
    else
      match splitOnChar sep rest with
      | h :: t => (c :: h) :: t
      | [] => [[c]]

/-! ## Version resolution (`getComponentVersion`, src/unnamed/part_002 lines 407-442)

The Masterminds semver library and the OCM repository client are external
capabilities; they are abstracted as a `SemverLib` record (constraint parsing,
version parsing, `Original()`) and an `OcmRepo` record (`LookupComponent`,
`ListVersions`, `LookupVersion`). -/

/-- The external `github.com/Masterminds/semver/v3` capability:
`NewConstraint` yields a check on parsed versions, `NewVersion` parses a
version string, `original` is `Version.Original()`. -/
structure SemverLib (V : Type) where
  newConstraint : Str → Except Str (V → Bool)
  newVersion : Str → Except Str V
  original : V → Str

/-- The handle returned by `repository.LookupComponent`: `ListVersions` and
`LookupVersion`. -/
structure ComponentHandle (CV : Type) where
  listVersions : Except Str (List Str)
  lookupVersion : Str → Except Str CV

/-- The external OCM repository capability. -/
structure OcmRepo (CV : Type) where
  lookupComponent : Str → Except Str (ComponentHandle CV)

/-- The `for _, vname := range vnames` loop of `getComponentVersion`
(lines 422-431): parse each listed name in order; a parse failure aborts with
that error; the loop `break`s on the first version satisfying the
constraint. -/
def findSatisfying (lib : SemverLib V) (check : V → Bool) : List Str → Except Str (Option V)
  | [] => .ok none
  | vname :: rest =>
    match lib.newVersion vname with
    | .error e => .error e
    | .ok v => if check v then .ok (some v) else findSatisfying lib check rest

/-- `getComponentVersion` (lines 407-442): look up the component, list its
versions, parse the constraint, scan for the first satisfying version, then
look that version up by its original string; no satisfying version is the
`NotFound` error `"no matching version found"`. -/
def getComponentVersion (lib : SemverLib V) (repo : OcmRepo CV)
    (componentName version : Str) : Except Str CV :=
  match repo.lookupComponent componentName with
  | .error e => .error e
  | .ok c =>
    match c.listVersions with
    | .error e => .error e
    | .ok vnames =>
      match lib.newConstraint version with
      | .error e => .error e
      | .ok check =>
        match findSatisfying lib check vnames with
        | .error e => .error e
        | .ok none => .error "no matching version found".data
        | .ok (some ver) => c.lookupVersion (lib.original ver)

/-! ### A concrete semver instance for scenarios -/

/-- Numeric parse of a nonempty all-digit character list. -/
def charsToNat? (cs : Str) : Option Nat :=
  if cs = [] then none
  else if cs.all (fun c => c.isDigit) then
    some (cs.foldl (fun n c => n * 10 + (c.toNat - 48)) 0)
  else none

/-- A parsed semantic version of the concrete instance; `originalStr` plays the
role of `Version.Original()`. -/
structure ToyVersion where
  major : Nat
  minor : Nat
  patch : Nat
  originalStr : Str
deriving DecidableEq

/-- Modelled from the spec: the external Masterminds semver version parser,
which is not part of this repository ("the orchestrator does not implement
... semantic-version parsing internals"). Concrete instance accepting
versions `X.Y.Z` with an optional leading `v`; anything else is the parse
error. -/
def toyNewVersion (s : Str) : Except Str ToyVersion :=
  let body := match s with | 'v' :: rest => rest | _ => s
  match splitOnChar '.' body with
  | [a, b, c] =>
    match charsToNat? a, charsToNat? b, charsToNat? c with
    | some x, some y, some z => .ok ⟨x, y, z, s⟩
    | _, _, _ => .error "Invalid Semantic Version".data
  | _ => .error "Invalid Semantic Version".data

/-- Modelled from the spec: the external Masterminds semver constraint parser,
which is not part of this repository. Concrete instance accepting wildcard
constraints `X.Y.x` with an optional leading `v`, satisfied by versions with
that major and minor. -/
def toyNewConstraint (s : Str) : Except Str (ToyVersion → Bool) :=
  let body := match s with | 'v' :: rest => rest | _ => s
  match splitOnChar '.' body with
  | [a, b, ['x']] =>
    match charsToNat? a, charsToNat? b with
    | some x, some y => .ok (fun v => v.major == x && v.minor == y)
    | _, _ => .error "improper constraint".data
  | _ => .error "improper constraint".data

/-- The concrete semver capability used in scenarios. -/
def toyLib : SemverLib ToyVersion := ⟨toyNewConstraint, toyNewVersion, ToyVersion.originalStr⟩

/-! ## Resource extraction (`getResources`, `getResourceContent`, `getResourceRef`,
src/unnamed/part_002 lines 444-513) -/

/-- An image coordinate, the `nameTag` struct (lines 73-76). -/
structure NameTag where
  name : Str
  tag : Str
deriving DecidableEq

/-- The byte-stream side of one resource: outcomes of `AccessMethod()`,
`Reader()`, `compression.AutoDecompress` and the final bytes read. These are
external I/O capabilities; each stage either fails with an error or passes
through. -/
structure ContentSource where
  accessMethod : Option Str
  readerErr : Option Str
  decompressErr : Option Str
  bytes : Str
deriving DecidableEq

/-- `getResourceContent` (lines 482-502): open the access method, obtain a
reader, auto-decompress, read to completion; any stage's error propagates. -/
def getResourceContent (src : ContentSource) : Except Str Str :=
  match src.accessMethod with
  | some e => .error e
  | none =>
    match src.readerErr with
    | some e => .error e
    | none =>
      match src.decompressErr with
      | some e => .error e
      | none => .ok src.bytes

/-- The `ociartifact.AccessSpec` of a resource: its OCI image reference. -/
structure AccessSpec where
  imageReference : Str
deriving DecidableEq

/-- One resource of a component version: logical name (`Meta().GetName()`),
type tag (`Meta().GetType()`), its content stream, and the result of
`resource.Access()`. -/
structure OcmResource where
  name : Str
  rtype : Str
  content : ContentSource
  access : Except Str AccessSpec

/-- `getResourceRef` (lines 504-513): if `Access()` errors the error is
dropped and empty strings are returned; otherwise the image reference is
`strings.Split` on `":"` and elements `[0]` and `[1]` are taken.  A reference
with no colon makes the `[1]` index panic at runtime, modelled as `none`. -/
def getResourceRef (access : Except Str AccessSpec) : Option (Str × Str) :=
  match access with
  | .error _ => some ([], [])
  | .ok spec =>
    match splitOnChar ':' spec.imageReference with
    | n :: v :: _ => some (n, v)
    | _ => none

/-- The `resources` struct (lines 78-84), keeping the source's field
spelling.  `imagesResources` is the Go map, modelled as an association list
where the most recent insertion is first. -/
structure Resources where
  componentResource : Option Str
  ocmConfig : Option Str
  imagesResources : List (Str × NameTag)
  compomentsList : List Str
deriving DecidableEq

/-- Go map read `m[k]`: first (most recent) binding, if any. -/
def mapLookup : List (Str × NameTag) → Str → Option NameTag
  | [], _ => none
  | (k, v) :: rest, key => if key = k then some v else mapLookup rest key

/-- The `for _, resource := range res` loop of `getResources`
(lines 453-478): dispatch on the resource name — the component's own name and
`"ocm-config"` are decoded (content errors abort), any other resource of type
`"ociImage"` gets its reference recorded under its name and its name appended
to the components list; everything else is skipped.  `none` is the runtime
panic from `getResourceRef`. -/
def getResourcesLoop (componentName : Str) :
    List OcmResource → Resources → Option (Except Str Resources)
  | [], acc => some (.ok acc)
  | r :: rest, acc =>
    if r.name = componentName then
      match getResourceContent r.content with
      | .error e => some (.error e)
      | .ok bs => getResourcesLoop componentName rest { acc with componentResource := some bs }
    else if r.name = "ocm-config".data then
      match getResourceContent r.content with
      | .error e => some (.error e)
      | .ok bs => getResourcesLoop componentName rest { acc with ocmConfig := some bs }
    else if r.rtype = "ociImage".data then
      match getResourceRef r.access with
      | none => none
      | some (n, v) =>
        getResourcesLoop componentName rest
          { acc with
            imagesResources := (r.name, ⟨n, v⟩) :: acc.imagesResources,
            compomentsList := acc.compomentsList ++ [r.name] }
    else
      getResourcesLoop componentName rest acc

/-- `getResources` (lines 444-480) over the resource list of a component
version. -/
def getResources (res : List OcmResource) (componentName : Str) :
    Option (Except Str Resources) :=
  getResourcesLoop componentName res ⟨none, none, [], []⟩

/-! ## Manifest generation (`generateGOTKComponent`, lines 209-220) -/

/-- A kustomize image override entry (`kustypes.Image`). -/
structure Image where
  name : Str
  newName : Str
  newTag : Str
deriving DecidableEq

/-- One entry of `kconfig.Localization`: the rule's resource name
(`loc.Resource.Name`). -/
structure LocalizationRule where
  resourceName : Str
deriving DecidableEq

/-- The image-override loop of `generateGOTKComponent` (lines 210-217): for
every localization rule, read `imagesResources[loc.Resource.Name]` — a Go map
read, yielding the zero value `nameTag{}` when the key is absent — and append
an override whose target is `DefaultFluxHost + "/" + name` and whose
replacement name/tag are the looked-up coordinate's. -/
def generateGOTKComponentImages (defaultFluxHost : Str)
    (localization : List LocalizationRule) (imagesResources : List (Str × NameTag))
    (kusImages : List Image) : List Image :=
  localization.foldl
    (fun imgs loc =>
      let image := (mapLookup imagesResources loc.resourceName).getD ⟨[], []⟩
      imgs ++ [⟨defaultFluxHost ++ '/' :: loc.resourceName, image.name, image.tag⟩])
    kusImages

/-! ## Git reconciliation (`commitAndPushComponents` lines 296-318,
`cloneRepository` lines 320-343, `cleanGitRepoDir` lines 346-358,
`retry` lines 525-537) -/

/-- Externally observable operations performed by the orchestrator, recorded
as a trace. -/
inductive Action
  | cleanDir (i : Nat)
  | cloneAttempt (i : Nat)
  | commit
  | push
  | applyManifests
  | reconcileSourceSecret
  | reconcileSyncConfig
  | healthKustomization
  | healthComponents
deriving DecidableEq

/-- Outcome of the external `gitClient.Commit` call: success, the sentinel
`git.ErrNoStagedFiles`, or any other error. -/
inductive CommitResult
  | commitOk
  | noStagedFiles
  | commitFail (msg : Str)
deriving DecidableEq

/-- `commitAndPushComponents` (lines 296-318): commit the staged file; an
error other than `git.ErrNoStagedFiles` is fatal; on `ErrNoStagedFiles` the
function returns nil without pushing; only a nil commit error leads to
`Push`, whose failure is fatal.  (The commit message formatting and the file
map are consumed by the external git capability, abstracted by the `commit`
outcome.) -/
def commitAndPushComponents (commit : CommitResult) (push : Option Str) :
    Except Str Unit × List Action :=
  match commit with
  | .commitFail m => (.error ("failed to commit sync manifests: ".data ++ m), [Action.commit])
  | .noStagedFiles => (.ok (), [Action.commit])
  | .commitOk =>
    match push with
    | some e => (.error ("failed to push manifests: ".data ++ e), [Action.commit, Action.push])
    | none => (.ok (), [Action.commit, Action.push])

/-- Outcome of the `gitClient.Head()` probe: the sentinel
`git.ErrNoGitRepository` or any other error. -/
inductive HeadErr
  | noGitRepository
  | other (msg : Str)
deriving DecidableEq

/-- External git/filesystem outcomes driving `cloneRepository`: the head
probe, and per-attempt outcomes of `cleanGitRepoDir` and `gitClient.Clone`. -/
structure CloneEnv where
  head : Option HeadErr
  clean : Nat → Option Str
  clone : Nat → Option Str

/-- `retry` (lines 525-537), with the i-th invocation of `fn` modelled by
`fn i`: call `fn`; stop on nil; otherwise retry (after sleeping `wait`,
elided here) while `i < retries`.  Returns the final error and the number of
invocations performed. -/
def retryFrom (retries wait : Nat) (fn : Nat → Option Str) (i : Nat) :
    Option Str × Nat :=
  match fn i with
  | none => (none, i + 1)
  | some e => if retries ≤ i then (some e, i + 1) else retryFrom retries wait fn (i + 1)
termination_by retries + 1 - i
decreasing_by simp_wf; omega

/-- `retry` starting from the first invocation. -/
def retry (retries wait : Nat) (fn : Nat → Option Str) : Option Str × Nat :=
  retryFrom retries wait fn 0

/-- One attempt of the closure passed to `retry` inside `cloneRepository`
(lines 325-338): `cleanGitRepoDir` first — its failure is wrapped and the
clone is not reached — then `gitClient.Clone`.  The trace records the
directory clean and, when reached, the clone attempt. -/
def cloneStep (env : CloneEnv) (i : Nat) : Option Str × List Action :=
  match env.clean i with
  | some e => (some ("failed to clean git repository directory: ".data ++ e), [Action.cleanDir i])
  | none => (env.clone i, [Action.cleanDir i, Action.cloneAttempt i])

/-- `retry` applied to the clone closure, instrumented with the action
trace; the result component agrees with `retryFrom` on
`fun i => (cloneStep env i).1` (proved below). -/
def retryClone (retries : Nat) (env : CloneEnv) (i : Nat) :
    Option Str × List Action :=
  match cloneStep env i with
  | (none, t) => (none, t)
  | (some e, t) =>
    if retries ≤ i then (some e, t)
    else
      let r2 := retryClone retries env (i + 1)
      (r2.1, t ++ r2.2)
termination_by retries + 1 - i
decreasing_by simp_wf; omega

/-- `cloneRepository` (lines 320-343): probe `Head()`; nil means a repository
is present and nothing is done; an error other than `git.ErrNoGitRepository`
is returned as-is; on `ErrNoGitRepository` the clean-and-clone closure runs
under `retry(1, 2*time.Second, ...)` and exhausting the retry wraps the last
error as the fatal clone failure. -/
def cloneRepository (env : CloneEnv) : Except Str Unit × List Action :=
  match env.head with
  | none => (.ok (), [])
  | some (.other m) => (.error m, [])
  | some .noGitRepository =>
    match retryClone 1 env 0 with
    | (none, t) => (.ok (), t)
    | (some e, t) => (.error ("failed to clone repository: ".data ++ e), t)

/-- Number of clone attempts recorded in a trace. -/
def countCloneAttempts (t : List Action) : Nat :=
  t.countP (fun a => match a with | Action.cloneAttempt _ => true | _ => false)

/-- Every clone attempt in the trace is immediately preceded by a full clean
of the working directory. -/
def cleanPrecedesClone (t : List Action) : Prop :=
  ∀ i, Action.cloneAttempt i ∈ t →
    ∃ pre post, t = pre ++ Action.cleanDir i :: Action.cloneAttempt i :: post

/-! ## The `Install` orchestration (`fluxInstall.Install`, lines 120-207)

External capabilities that `Install` merely sequences — writing the primary
manifest and parsing the kustomization file (`generateKustomization`/`genKus`),
the YAML-or-JSON config decoder, the kustomize build
(`buildKustomization`: marshal, write, `kustomize.Build` under the directory
mutex, `AsYaml`), the git transport, the cluster apply and the flux
bootstrapper's reconcile/health calls — are oracle fields of the
environment. -/

/-- `errors.Join` restricted to at most one pending error on the left, as in
the health phase: joining with nil is the identity; two errors join into one
whose message is both messages separated by a newline. -/
def joinErr : Option Str → Option Str → Option Str
  | none, b => b
  | some a, none => some a
  | some a, some b => some (a ++ '\n' :: b)

/-- `unMarshallConfig` (lines 515-523) over the external decoder capability:
a decode failure is wrapped as `"failed to decode config data: ..."`.  The
decoded `ConfigData` is represented by its `Localization` rule list, the only
part the installer reads. -/
def unMarshallConfig (decode : Str → Except Str (List LocalizationRule))
    (data : Str) : Except Str (List LocalizationRule) :=
  match decode data with
  | .error e => .error ("failed to decode config data: ".data ++ e)
  | .ok k => .ok k

/-- Environment of one `fluxInstall` run: the semver and repository
capabilities, the resource list of a looked-up component version, and oracles
for every external call `Install` performs. -/
structure InstallEnv (V CV : Type) where
  lib : SemverLib V
  repo : OcmRepo CV
  getRes : CV → List OcmResource
  generateKustomization : Str → Str → Except Str (List Image)
  decode : Str → Except Str (List LocalizationRule)
  defaultFluxHost : Str
  build : List Image → Except Str Str
  cloneEnv : CloneEnv
  commit : CommitResult
  push : Option Str
  mustInstall : Bool
  applyManifests : Except Str Unit
  reconcileSourceSecret : Option Str
  reconcileSyncConfig : Option Str
  healthKustomization : Option Str
  healthComponents : Option Str

/-- `generateGOTKComponent` (lines 209-220): extend the kustomization's image
overrides by one entry per localization rule, then hand the result to the
external kustomize build (`buildKustomization`). -/
def generateGOTKComponent (env : InstallEnv V CV)
    (localization : List LocalizationRule) (imagesResources : List (Str × NameTag))
    (kusImages : List Image) : Except Str Str :=
  env.build (generateGOTKComponentImages env.defaultFluxHost localization imagesResources kusImages)

/-- `reconcileComponents` (lines 262-290): clone if needed, commit and push,
then conditionally apply the manifests to the cluster (the
kustomization-file-versus-raw-manifest choice inside the apply is part of the
apply oracle). -/
def reconcileComponents (env : InstallEnv V CV) : Except Str Unit × List Action :=
  match cloneRepository env.cloneEnv with
  | (.error e, t) => (.error ("failed to clone repository: ".data ++ e), t)
  | (.ok _, t) =>
    match commitAndPushComponents env.commit env.push with
    | (.error e, t2) => (.error ("failed to commit and push components: ".data ++ e), t ++ t2)
    | (.ok _, t2) =>
      if env.mustInstall then
        match env.applyManifests with
        | .error e => (.error ("failed to apply components: ".data ++ e),
            t ++ t2 ++ [Action.applyManifests])
        | .ok _ => (.ok (), t ++ t2 ++ [Action.applyManifests])
      else (.ok (), t ++ t2)

/-- `fluxInstall.Install` (lines 120-207): resolve the component version,
extract its resources (the extracted `compomentsList` feeds the health check,
part of its oracle), require the component and `ocm-config` resources to be
non-nil, generate the kustomization and the localized component manifest,
reconcile it into the git repository, reconcile the source secret and the
sync configuration, and finally run both health checks, joining their
failures.  The result is paired with the trace of performed actions; `none`
is a runtime panic escaping from resource extraction. -/
def Install (env : InstallEnv V CV) (componentName version component : Str) :
    Option (Except Str Unit × List Action) :=
  match getComponentVersion env.lib env.repo componentName version with
  | .error e => some (.error ("failed to get component version: ".data ++ e), [])
  | .ok cv =>
    match getResources (env.getRes cv) component with
    | none => none
    | some (.error e) => some (.error ("failed to get resources: ".data ++ e), [])
    | some (.ok res) =>
      match res.componentResource, res.ocmConfig with
      | some compRes, some ocmCfg =>
        (match env.generateKustomization compRes ocmCfg with
        | .error e => some (.error e, [])
        | .ok kusImages =>
          match unMarshallConfig env.decode ocmCfg with
          | .error e => some (.error e, [])
          | .ok kconfig =>
            match generateGOTKComponent env kconfig res.imagesResources kusImages with
            | .error e => some (.error e, [])
            | .ok _rendered =>
              match reconcileComponents env with
              | (.error e, t) => some (.error ("failed to reconcile components: ".data ++ e), t)
              | (.ok _, t) =>
                match env.reconcileSourceSecret with
                | some e => some (.error e, t ++ [Action.reconcileSourceSecret])
                | none =>
                  match env.reconcileSyncConfig with
                  | some e => some (.error ("failed to reconcile sync config: ".data ++ e),
                      t ++ [Action.reconcileSourceSecret, Action.reconcileSyncConfig])
                  | none =>
                    let t2 := t ++ [Action.reconcileSourceSecret, Action.reconcileSyncConfig,
                      Action.healthKustomization, Action.healthComponents]
                    match joinErr (joinErr none env.healthKustomization) env.healthComponents with
                    | some e => some (.error
                        ("failed to report health, please try again later: ".data ++ e), t2)
                    | none => some (.ok (), t2))
      | _, _ => some (.error "flux or ocm-config resource not found".data, [])

/-! ## Bootstrap options (`options`, `New`, `WithTarget`, `setDefaults`,
src/unnamed/part_000) -/

/-- The `options` struct (part_000 lines 28-47) restricted to its data
fields; the kube client, REST client getter and printer are external handles
never touched by `setDefaults`. -/
structure BootstrapOptions where
  description : Str
  defaultBranch : Str
  visibility : Str
  personal : Bool
  owner : Str
  token : Str
  repositoryName : Str
  target : Str
  fromFile : Str
  registry : Str
  dockerConfigPath : Str
  transportType : Str
  components : List Str
  interval : Nat
  timeout : Nat
deriving DecidableEq

/-- The Go zero value every `Bootstrap` starts from in `New`. -/
def defaultBootstrapOptions : BootstrapOptions :=
  ⟨[], [], [], false, [], [], [], [], [], [], [], [], [], 0, 0⟩

/-- Go `strings.TrimSuffix`: drop `suffix` from the end of `s` once, if
present. -/
def trimSuffix (s : Str) (suffix : Str) : Str :=
  if suffix.isSuffixOf s then s.take (s.length - suffix.length) else s

/-- `WithTarget` (lines 97-102): the target is stored with a single trailing
`"/"` trimmed. -/
def WithTarget (target : Str) (o : BootstrapOptions) : BootstrapOptions :=
  { o with target := trimSuffix target "/".data }

/-- `WithDescription` (lines 119-123). -/
def WithDescription (description : Str) (o : BootstrapOptions) : BootstrapOptions :=
  { o with description := description }

/-- `WithDefaultBranch` (lines 126-130). -/
def WithDefaultBranch (defaultBranch : Str) (o : BootstrapOptions) : BootstrapOptions :=
  { o with defaultBranch := defaultBranch }

/-- `WithVisibility` (lines 133-137). -/
def WithVisibility (visibility : Str) (o : BootstrapOptions) : BootstrapOptions :=
  { o with visibility := visibility }

/-- `WithTransportType` (lines 182-186). -/
def WithTransportType (transportType : Str) (o : BootstrapOptions) : BootstrapOptions :=
  { o with transportType := transportType }

/-- `WithOwner` (lines 147-151). -/
def WithOwner (owner : Str) (o : BootstrapOptions) : BootstrapOptions :=
  { o with owner := owner }

/-- `WithToken` (lines 154-158). -/
def WithToken (token : Str) (o : BootstrapOptions) : BootstrapOptions :=
  { o with token := token }

/-- `WithRepositoryName` (lines 161-165). -/
def WithRepositoryName (repositoryName : Str) (o : BootstrapOptions) : BootstrapOptions :=
  { o with repositoryName := repositoryName }

/-- `setDefaults` (lines 431-447): four independent conditional assignments,
each filling its own field only when it is the empty string. -/
def setDefaults (o : BootstrapOptions) : BootstrapOptions :=
  { o with
    description := if o.description = [] then
        "Management repository for the Open Component Model".data else o.description,
    defaultBranch := if o.defaultBranch = [] then "main".data else o.defaultBranch,
    visibility := if o.visibility = [] then "private".data else o.visibility,
    transportType := if o.transportType = [] then "https".data else o.transportType }

/-- The option-application loop of `New` (lines 194-196) over the zero-valued
options. -/
def applyOptions (opts : List (BootstrapOptions → BootstrapOptions)) : BootstrapOptions :=
  opts.foldl (fun o f => f o) defaultBootstrapOptions

/-- `New` (lines 189-201), restricted to the options it constructs: apply
every option to the zero value, then fill defaults. -/
def New (opts : List (BootstrapOptions → BootstrapOptions)) : BootstrapOptions :=
  setDefaults (applyOptions opts)

/-! ## Concrete scenario inputs -/

/-- An OCM repository whose sole component lists the given version names and
whose `LookupVersion` hands back the requested version string as the
component-version handle. -/
def toyRepo (vnames : List Str) : OcmRepo Str :=
  ⟨fun _ => .ok ⟨.ok vnames, fun s => .ok s⟩⟩

/-- A content source every stage of which succeeds, yielding `bs`. -/
def okContent (bs : Str) : ContentSource := ⟨none, none, none, bs⟩

/-- An install environment around `toyLib`/`toyRepo` in which every external
operation succeeds on well-formed input; the resource list of the resolved
component version is the parameter.  The config decoder mirrors the real
YAML-or-JSON decoder's fixed behaviour on an empty document: it reports
`EOF`; on non-empty input it succeeds.  The git head probe reports an
existing repository, no cluster apply is required, and both health checks
pass. -/
def baseInstallEnv (vnames : List Str) (res : List OcmResource) :
    InstallEnv ToyVersion Str where
  lib := toyLib
  repo := toyRepo vnames
  getRes := fun _ => res
  generateKustomization := fun _ _ => .ok []
  decode := fun d => if d = [] then .error "EOF".data else .ok []
  defaultFluxHost := "ghcr.io/fluxcd".data
  build := fun _ => .ok []
  cloneEnv := ⟨none, fun _ => none, fun _ => none⟩
  commit := .commitOk
  push := none
  mustInstall := false
  applyManifests := .ok ()
  reconcileSourceSecret := none
  reconcileSyncConfig := none
  healthKustomization := none
  healthComponents := none

/-- Scenario bundle for the missing-resource precondition: the resolved
component version carries no resources at all. -/
def envMissingConfig : InstallEnv ToyVersion Str :=
  baseInstallEnv ["v0.1.0".data] []

/-- Scenario bundle in which both required resources are present but the
`ocm-config` document's content is empty (a present, zero-length byte
stream); its decoder, inherited from `baseInstallEnv`, reports `EOF` on the
empty document exactly as the real decoder does. -/
def envEmptyConfig : InstallEnv ToyVersion Str :=
  baseInstallEnv ["v0.1.0".data]
    [⟨"flux".data, "plainText".data, okContent "manifest-bytes".data, .error []⟩,
     ⟨"ocm-config".data, "plainText".data, okContent [], .error []⟩]

/-- Scenario environment for health aggregation: everything up to the health
phase succeeds, the sync-object (kustomization) health check times out, the
installed-components health check passes. -/
def envHealthScenario : InstallEnv ToyVersion Str :=
  { baseInstallEnv ["v0.1.0".data]
      [⟨"flux".data, "plainText".data, okContent "manifest-bytes".data, .error []⟩,
       ⟨"ocm-config".data, "plainText".data, okContent "config-bytes".data, .error []⟩] with
    healthKustomization := some "kustomization health check timed out".data }

/-- Scenario clone environment: no repository present, directory cleans
succeed, the first clone attempt fails transiently, the second succeeds. -/
def envCloneRetryScenario : CloneEnv :=
  ⟨some .noGitRepository, fun _ => none,
   fun i => if i = 0 then some "transient network error".data else none⟩

/-! ## Helper lemmas -/

theorem splitOnChar_no_sep (sep : Char) (a : Str) (h : sep ∉ a) :
    splitOnChar sep a = [a] := by
  induction a with
  | nil => rfl
  | cons c cs ih =>
    have hc : ¬ c = sep := by
      intro hh
      exact h (hh ▸ List.mem_cons_self c cs)
    have hcs : sep ∉ cs := fun hh => h (List.mem_cons_of_mem c hh)
    simp [splitOnChar, hc, ih hcs]

theorem splitOnChar_append (sep : Char) (a b : Str) (h : sep ∉ a) :
    splitOnChar sep (a ++ sep :: b) = a :: splitOnChar sep b := by
  induction a with
  | nil => simp [splitOnChar]
  | cons c cs ih =>
    have hc : ¬ c = sep := by
      intro hh
      exact h (hh ▸ List.mem_cons_self c cs)
    have hcs : sep ∉ cs := fun hh => h (List.mem_cons_of_mem c hh)
    simp [splitOnChar, hc, ih hcs]

/-! ## C3 — `getResourceRef` coordinate parsing -/

/-- C3 counterexample: the reference `"a:b:c"` is split at its FIRST colon,
yielding `("a", "b")`, not at its last colon (which would yield
`("a:b", "c")`); and the colon-free reference `"abc"` produces a runtime
panic (index out of range), not a malformed-input error. -/
theorem getResourceRef_last_colon_cex :
    getResourceRef (.ok ⟨"a:b:c".data⟩) = some ("a".data, "b".data)
    ∧ ("a".data, "b".data) ≠ ("a:b".data, "c".data)
    ∧ getResourceRef (.ok ⟨"abc".data⟩) = none := by
  exact ⟨rfl, by decide, rfl⟩

/-- C3 (amended): `getResourceRef` splits the image reference at its FIRST
colon: a reference `name:tag` (both colon-free) yields `(name, tag)`; a
reference `name:tag:rest` also yields `(name, tag)` — extra colon-bearing
references are not rejected; a reference with no colon panics at the `[1]`
index (modelled `none`); an `Access()` error yields empty strings. -/
theorem getResourceRef_first_colon_spec (name tag rest e : Str) (h1 : ':' ∉ name) :
    getResourceRef (.error e) = some ([], [])
    ∧ getResourceRef (.ok ⟨name⟩) = none
    ∧ (':' ∉ tag →
        getResourceRef (.ok ⟨name ++ ':' :: tag⟩) = some (name, tag)
        ∧ getResourceRef (.ok ⟨name ++ ':' :: (tag ++ ':' :: rest)⟩) = some (name, tag)) := by
  refine ⟨rfl, ?_, ?_⟩
  · simp [getResourceRef, splitOnChar_no_sep ':' name h1]
  · intro h2
    constructor
    · simp [getResourceRef, splitOnChar_append ':' name tag h1,
        splitOnChar_no_sep ':' tag h2]
    · simp [getResourceRef, splitOnChar_append ':' name (tag ++ ':' :: rest) h1,
        splitOnChar_append ':' tag rest h2]

/-- C3 witness: the well-formed reference `"repo/name:tag"` parses to
`(repo/name, tag)`. -/
theorem getResourceRef_first_colon_spec_witness :
    getResourceRef (.ok ⟨"repo/name:tag".data⟩) = some ("repo/name".data, "tag".data) := by
  have h := getResourceRef_first_colon_spec "repo/name".data "tag".data "x".data []
    (by decide)
  exact (h.2.2 (by decide)).1

/-! ## C4 — one image override per localization rule -/

/-- C4 counterexample: a localization rule whose resource name has NO
matching image coordinate is not skipped — the loop emits an override entry
for it, with the Go zero value (empty replacement name and tag). -/
theorem generateGOTKComponent_unmatched_rule_cex :
    generateGOTKComponentImages "host".data [⟨"foo".data⟩] [] []
      = [⟨"host/foo".data, [], []⟩]
    ∧ generateGOTKComponentImages "host".data [⟨"foo".data⟩] [] [] ≠ [] := by
  exact ⟨by decide, by decide⟩

/-- C4 (amended): every localization rule — matched or not — produces exactly
one image-override entry appended in rule order; its target name is the
default host joined with the rule's resource name; a matched rule's entry
carries the matching coordinate's name and tag, an unmatched rule's entry
carries empty (Go zero value) name and tag. -/
theorem generateGOTKComponent_one_entry_per_rule (host : Str)
    (rules : List LocalizationRule) (m : List (Str × NameTag)) (init : List Image) :
    generateGOTKComponentImages host rules m init =
      init ++ rules.map (fun loc =>
        let image := (mapLookup m loc.resourceName).getD ⟨[], []⟩
        ⟨host ++ '/' :: loc.resourceName, image.name, image.tag⟩)
    ∧ (generateGOTKComponentImages host rules m init).length = init.length + rules.length
    ∧ (∀ loc ∈ rules, mapLookup m loc.resourceName = none →
        Image.mk (host ++ '/' :: loc.resourceName) [] [] ∈
          generateGOTKComponentImages host rules m init) := by
  have key : ∀ (rs : List LocalizationRule) (acc : List Image),
      generateGOTKComponentImages host rs m acc =
        acc ++ rs.map (fun loc =>
          let image := (mapLookup m loc.resourceName).getD ⟨[], []⟩
          ⟨host ++ '/' :: loc.resourceName, image.name, image.tag⟩) := by
    intro rs
    induction rs with
    | nil => intro acc; simp [generateGOTKComponentImages]
    | cons loc rest ih =>
      intro acc
      have step : generateGOTKComponentImages host (loc :: rest) m acc =
          generateGOTKComponentImages host rest m
            (acc ++ [⟨host ++ '/' :: loc.resourceName,
              ((mapLookup m loc.resourceName).getD ⟨[], []⟩).name,
              ((mapLookup m loc.resourceName).getD ⟨[], []⟩).tag⟩]) := rfl
      rw [step, ih]
      simp
  refine ⟨key rules init, ?_, ?_⟩
  · rw [key rules init]
    simp
  · intro loc hloc hnone
    rw [key rules init]
    refine List.mem_append_right _ ?_
    refine List.mem_map.mpr ⟨loc, hloc, ?_⟩
    simp [hnone]

/-- C4 witness: a matched rule produces the entry with the coordinate's name
and tag. -/
theorem generateGOTKComponent_one_entry_per_rule_witness :
    generateGOTKComponentImages "host".data [⟨"foo".data⟩]
      [("foo".data, ⟨"reg/foo".data, "v1".data⟩)] []
      = [⟨"host/foo".data, "reg/foo".data, "v1".data⟩] := by
  have h := (generateGOTKComponent_one_entry_per_rule "host".data [⟨"foo".data⟩]
    [("foo".data, ⟨"reg/foo".data, "v1".data⟩)] []).1
  exact h.trans (by decide)

/-! ## C6 — commit/push phase -/

/-- C6: in `commitAndPushComponents`, a commit reporting no staged files is a
success and push is skipped; any other commit error is fatal; push is
attempted exactly when the commit was created; push failure is fatal. -/
theorem commitAndPushComponents_spec (c : CommitResult) (p : Option Str) :
    (c = .noStagedFiles → commitAndPushComponents c p = (.ok (), [Action.commit]))
    ∧ (∀ m, c = .commitFail m →
        commitAndPushComponents c p =
          (.error ("failed to commit sync manifests: ".data ++ m), [Action.commit]))
    ∧ (Action.push ∈ (commitAndPushComponents c p).2 ↔ c = .commitOk)
    ∧ (c = .commitOk → p = none →
        commitAndPushComponents c p = (.ok (), [Action.commit, Action.push]))
    ∧ (c = .commitOk → ∀ e, p = some e →
        commitAndPushComponents c p =
          (.error ("failed to push manifests: ".data ++ e), [Action.commit, Action.push])) := by
  cases c <;> cases p <;> simp [commitAndPushComponents]

/-- C6 witness: a no-change commit succeeds without a push. -/
theorem commitAndPushComponents_spec_witness :
    commitAndPushComponents .noStagedFiles none = (.ok (), [Action.commit]) := by
  exact (commitAndPushComponents_spec .noStagedFiles none).1 rfl

/-! ## C9 — error surfacing during extraction -/

/-- C9 counterexample: a bundle with a single `ociImage` resource whose
`Access()` call fails extracts SUCCESSFULLY — the access error is discarded,
the resource is recorded with empty image coordinates, and no error reaches
the caller. -/
theorem getResources_swallows_access_error_cex :
    getResources
      [⟨"img1".data, "ociImage".data, okContent [], .error "access denied".data⟩]
      "flux".data
      = some (.ok ⟨none, none, [("img1".data, ⟨[], []⟩)], ["img1".data]⟩) := rfl

/-- C9 (amended): during extraction, a failure of `resource.Access()` inside
`getResourceRef` is silently discarded — the loop records an empty coordinate
for the resource and continues — whereas a failure while reading the content
of the component resource or of the `ocm-config` resource aborts extraction
with that error. -/
theorem getResources_error_surfacing (cn : Str) (r : OcmResource)
    (rest : List OcmResource) (acc : Resources) :
    (r.name ≠ cn → r.name ≠ "ocm-config".data → r.rtype = "ociImage".data →
      ∀ e, r.access = .error e →
        getResourcesLoop cn (r :: rest) acc =
          getResourcesLoop cn rest
            { acc with
              imagesResources := (r.name, ⟨[], []⟩) :: acc.imagesResources,
              compomentsList := acc.compomentsList ++ [r.name] })
    ∧ (r.name = cn → ∀ e, getResourceContent r.content = .error e →
        getResourcesLoop cn (r :: rest) acc = some (.error e))
    ∧ (r.name ≠ cn → r.name = "ocm-config".data →
        ∀ e, getResourceContent r.content = .error e →
        getResourcesLoop cn (r :: rest) acc = some (.error e)) := by
  refine ⟨?_, ?_, ?_⟩
  · intro h1 h2 h3 e ha
    simp [getResourcesLoop, h1, h2, h3, getResourceRef, ha]
  · intro h1 e hc
    simp [getResourcesLoop, h1, hc]
  · intro h1 h2 e hc
    simp [getResourcesLoop, h1, h2, hc]

/-- C9 witness: an access failure on an image resource is swallowed (first
conjunct), and a content failure on the component resource surfaces (second
conjunct), both at concrete inputs. -/
theorem getResources_error_surfacing_witness :
    getResourcesLoop "flux".data
        [⟨"img1".data, "ociImage".data, okContent [], .error "access denied".data⟩]
        ⟨none, none, [], []⟩
      = some (.ok ⟨none, none, [("img1".data, ⟨[], []⟩)], ["img1".data]⟩)
    ∧ getResourcesLoop "flux".data
        [⟨"flux".data, "plainText".data, ⟨some "io failure".data, none, none, []⟩, .error []⟩]
        ⟨none, none, [], []⟩
      = some (.error "io failure".data) := by
  constructor
  · have h := (getResources_error_surfacing "flux".data
      ⟨"img1".data, "ociImage".data, okContent [], .error "access denied".data⟩
      [] ⟨none, none, [], []⟩).1
    exact (h (by decide) (by decide) rfl "access denied".data rfl).trans rfl
  · have h := (getResources_error_surfacing "flux".data
      ⟨"flux".data, "plainText".data, ⟨some "io failure".data, none, none, []⟩, .error []⟩
      [] ⟨none, none, [], []⟩).2.1
    exact h rfl "io failure".data rfl

/-! ## C10 — bootstrap option defaults -/

/-- C10: `New` fills exactly the four unset string options with their fixed
defaults — description, default branch `"main"`, visibility `"private"`,
transport type `"https"` — leaves caller-set non-empty values and every other
option untouched, and `WithTarget` stores the target with a single trailing
`"/"` removed. -/
theorem New_defaults_spec (opts : List (BootstrapOptions → BootstrapOptions))
    (t u : Str) (o : BootstrapOptions) :
    ((New opts).description = if (applyOptions opts).description = [] then
        "Management repository for the Open Component Model".data
      else (applyOptions opts).description)
    ∧ ((New opts).defaultBranch = if (applyOptions opts).defaultBranch = [] then
        "main".data else (applyOptions opts).defaultBranch)
    ∧ ((New opts).visibility = if (applyOptions opts).visibility = [] then
        "private".data else (applyOptions opts).visibility)
    ∧ ((New opts).transportType = if (applyOptions opts).transportType = [] then
        "https".data else (applyOptions opts).transportType)
    ∧ (New opts).target = (applyOptions opts).target
    ∧ (New opts).owner = (applyOptions opts).owner
    ∧ (New opts).token = (applyOptions opts).token
    ∧ (New opts).repositoryName = (applyOptions opts).repositoryName
    ∧ (New opts).registry = (applyOptions opts).registry
    ∧ (New opts).personal = (applyOptions opts).personal
    ∧ (WithTarget t o).target = trimSuffix t "/".data
    ∧ (WithTarget (u ++ ['/']) o).target = u
    ∧ (("/".data).isSuffixOf t = false → (WithTarget t o).target = t) := by
  refine ⟨rfl, rfl, rfl, rfl, rfl, rfl, rfl, rfl, rfl, rfl, rfl, ?_, ?_⟩
  · show trimSuffix (u ++ ['/']) "/".data = u
    have hsuf : ("/".data).isSuffixOf (u ++ ['/']) = true := by
      rw [List.isSuffixOf_iff_suffix]
      exact ⟨u, rfl⟩
    simp only [trimSuffix, hsuf, if_true]
    simp
  · intro h
    show trimSuffix t "/".data = t
    simp [trimSuffix, h]

/-- C10 witness: a target with one trailing slash is stored trimmed, one
without is stored as-is. -/
theorem New_defaults_spec_witness :
    (WithTarget "github.com/acme/repo/".data defaultBootstrapOptions).target
      = "github.com/acme/repo".data
    ∧ (WithTarget "github.com/acme/repo".data defaultBootstrapOptions).target
      = "github.com/acme/repo".data := by
  constructor
  · have h := (New_defaults_spec [] "x".data "github.com/acme/repo".data
      defaultBootstrapOptions).2.2.2.2.2.2.2.2.2.2.2.1
    exact h
  · have h := (New_defaults_spec [] "github.com/acme/repo".data "y".data
      defaultBootstrapOptions).2.2.2.2.2.2.2.2.2.2.2.2
    exact h (by decide)

/-! ## C1/C2 — version resolution -/

theorem findSatisfying_none (lib : SemverLib V) (check : V → Bool) :
    ∀ l : List Str,
      (∀ s ∈ l, ∃ v, lib.newVersion s = .ok v) →
      (∀ s ∈ l, ∀ v, lib.newVersion s = .ok v → check v = false) →
      findSatisfying lib check l = .ok none := by
  intro l
  induction l with
  | nil => intro _ _; rfl
  | cons s rest ih =>
    intro hparse hfail
    obtain ⟨v, hv⟩ := hparse s (List.mem_cons_self s rest)
    have hf := hfail s (List.mem_cons_self s rest) v hv
    simp [findSatisfying, hv, hf]
    exact ih (fun t ht => hparse t (List.mem_cons_of_mem s ht))
      (fun t ht => hfail t (List.mem_cons_of_mem s ht))

theorem findSatisfying_first (lib : SemverLib V) (check : V → Bool) :
    ∀ (pre : List Str) (s : Str) (post : List Str) (v : V),
      (∀ t ∈ pre, ∃ u, lib.newVersion t = .ok u) →
      (∀ t ∈ pre, ∀ u, lib.newVersion t = .ok u → check u = false) →
      lib.newVersion s = .ok v → check v = true →
      findSatisfying lib check (pre ++ s :: post) = .ok (some v) := by
  intro pre
  induction pre with
  | nil =>
    intro s post v _ _ hv hc
    simp [findSatisfying, hv, hc]
  | cons t ts ih =>
    intro s post v hparse hfail hv hc
    obtain ⟨u, hu⟩ := hparse t (List.mem_cons_self t ts)
    have hf := hfail t (List.mem_cons_self t ts) u hu
    simp only [List.cons_append, findSatisfying, hu, hf]
    simp only [Bool.false_eq_true, if_false]
    exact ih s post v (fun x hx => hparse x (List.mem_cons_of_mem t hx))
      (fun x hx => hfail x (List.mem_cons_of_mem t hx)) hv hc

theorem findSatisfying_malformed (lib : SemverLib V) (check : V → Bool) :
    ∀ (pre : List Str) (s : Str) (post : List Str) (e : Str),
      (∀ t ∈ pre, ∃ u, lib.newVersion t = .ok u) →
      (∀ t ∈ pre, ∀ u, lib.newVersion t = .ok u → check u = false) →
      lib.newVersion s = .error e →
      findSatisfying lib check (pre ++ s :: post) = .error e := by
  intro pre
  induction pre with
  | nil =>
    intro s post e _ _ hv
    simp [findSatisfying, hv]
  | cons t ts ih =>
    intro s post e hparse hfail hv
    obtain ⟨u, hu⟩ := hparse t (List.mem_cons_self t ts)
    have hf := hfail t (List.mem_cons_self t ts) u hu
    simp only [List.cons_append, findSatisfying, hu, hf]
    simp only [Bool.false_eq_true, if_false]
    exact ih s post e (fun x hx => hparse x (List.mem_cons_of_mem t hx))
      (fun x hx => hfail x (List.mem_cons_of_mem t hx)) hv

/-- C1: when the component exists, the constraint parses, and every listed
version name parses as a semantic version, `getComponentVersion` resolves the
FIRST listed name whose version satisfies the constraint — looking that exact
name up via `LookupVersion` of its `Original()` string — and, when no listed
version satisfies the constraint, fails with the `NotFound` error
`"no matching version found"`. -/
theorem getComponentVersion_first_match (lib : SemverLib V) (repo : OcmRepo CV)
    (cn cstr : Str) (comp : ComponentHandle CV) (vnames : List Str) (check : V → Bool)
    (h1 : repo.lookupComponent cn = .ok comp)
    (h2 : comp.listVersions = .ok vnames)
    (h3 : lib.newConstraint cstr = .ok check)
    (hparse : ∀ s ∈ vnames, ∃ v, lib.newVersion s = .ok v) :
    (∀ (pre : List Str) (s : Str) (post : List Str) (v : V),
        vnames = pre ++ s :: post →
        (∀ t ∈ pre, ∀ u, lib.newVersion t = .ok u → check u = false) →
        lib.newVersion s = .ok v → check v = true →
        lib.original v = s →
        getComponentVersion lib repo cn cstr = comp.lookupVersion s)
    ∧ ((∀ s ∈ vnames, ∀ v, lib.newVersion s = .ok v → check v = false) →
        getComponentVersion lib repo cn cstr = .error "no matching version found".data) := by
  constructor
  · intro pre s post v hsplit hfail hv hc horig
    have hfind : findSatisfying lib check vnames = .ok (some v) := by
      rw [hsplit]
      exact findSatisfying_first lib check pre s post v
        (fun t ht => hparse t (hsplit ▸ List.mem_append_left _ ht)) hfail hv hc
    simp [getComponentVersion, h1, h2, h3, hfind, horig]
  · intro hfail
    have hfind : findSatisfying lib check vnames = .ok none :=
      findSatisfying_none lib check vnames hparse hfail
    simp [getComponentVersion, h1, h2, h3, hfind]

/-- All three scenario version names parse under the concrete library. -/
theorem scenarioVersions_parse :
    ∀ s ∈ ["v0.1.0".data, "v0.2.0".data, "v0.1.1".data],
      ∃ v, toyLib.newVersion s = .ok v := by
  intro s hs
  simp only [List.mem_cons, List.not_mem_nil, or_false] at hs
  rcases hs with rfl | rfl | rfl
  · exact ⟨_, rfl⟩
  · exact ⟨_, rfl⟩
  · exact ⟨_, rfl⟩

/-- C1 witness: the spec scenario — constraint `"v0.1.x"` against the listing
`["v0.1.0", "v0.2.0", "v0.1.1"]` resolves to `"v0.1.0"`, the first match in
list order, not `"v0.1.1"`. -/
theorem getComponentVersion_first_match_witness :
    getComponentVersion toyLib
        (toyRepo ["v0.1.0".data, "v0.2.0".data, "v0.1.1".data])
        "flux".data "v0.1.x".data
      = .ok "v0.1.0".data := by
  have h := (getComponentVersion_first_match toyLib
    (toyRepo ["v0.1.0".data, "v0.2.0".data, "v0.1.1".data])
    "flux".data "v0.1.x".data
    ⟨.ok ["v0.1.0".data, "v0.2.0".data, "v0.1.1".data], fun s => .ok s⟩
    ["v0.1.0".data, "v0.2.0".data, "v0.1.1".data]
    (fun v => v.major == 0 && v.minor == 1)
    rfl rfl rfl scenarioVersions_parse).1
  have h2 := h [] "v0.1.0".data ["v0.2.0".data, "v0.1.1".data]
    ⟨0, 1, 0, "v0.1.0".data⟩ rfl (by intro t ht; cases ht) rfl rfl rfl
  exact h2

/-- C2 counterexample: the version list `["v0.1.0", "not-a-version"]` contains
an entry that does not parse as a semantic version, yet resolution with the
constraint `"v0.1.x"` SUCCEEDS with `"v0.1.0"` — the loop breaks on the first
satisfying version and never parses the malformed entry, so no
`MalformedVersion` error is produced. -/
theorem getComponentVersion_break_skips_malformed_cex :
    getComponentVersion toyLib
        (toyRepo ["v0.1.0".data, "not-a-version".data])
        "flux".data "v0.1.x".data
      = .ok "v0.1.0".data := rfl

/-- C2 (amended): an entry that fails to parse as a semantic version aborts
the whole resolution with that parse error exactly when it is scanned before
any constraint-satisfying entry — i.e. when every earlier entry parses but
fails the constraint; a malformed entry after the first satisfying one is
never examined. -/
theorem getComponentVersion_malformed_before_match (lib : SemverLib V)
    (repo : OcmRepo CV) (cn cstr : Str) (comp : ComponentHandle CV)
    (vnames pre : List Str) (s : Str) (post : List Str) (e : Str) (check : V → Bool)
    (h1 : repo.lookupComponent cn = .ok comp)
    (h2 : comp.listVersions = .ok vnames)
    (h3 : lib.newConstraint cstr = .ok check)
    (hsplit : vnames = pre ++ s :: post)
    (hpre : ∀ t ∈ pre, ∃ u, lib.newVersion t = .ok u)
    (hfail : ∀ t ∈ pre, ∀ u, lib.newVersion t = .ok u → check u = false)
    (hbad : lib.newVersion s = .error e) :
    getComponentVersion lib repo cn cstr = .error e := by
  have hfind : findSatisfying lib check vnames = .error e := by
    rw [hsplit]
    exact findSatisfying_malformed lib check pre s post e hpre hfail hbad
  simp [getComponentVersion, h1, h2, h3, hfind]

/-- C2 witness: a malformed entry scanned before any match aborts resolution
with the semver parse error. -/
theorem getComponentVersion_malformed_before_match_witness :
    getComponentVersion toyLib
        (toyRepo ["not-a-version".data, "v0.1.0".data])
        "flux".data "v0.1.x".data
      = .error "Invalid Semantic Version".data := by
  exact getComponentVersion_malformed_before_match toyLib
    (toyRepo ["not-a-version".data, "v0.1.0".data])
    "flux".data "v0.1.x".data
    ⟨.ok ["not-a-version".data, "v0.1.0".data], fun s => .ok s⟩
    ["not-a-version".data, "v0.1.0".data]
    [] "not-a-version".data ["v0.1.0".data]
    "Invalid Semantic Version".data
    (fun v => v.major == 0 && v.minor == 1)
    rfl rfl rfl rfl
    (by intro t ht; cases ht)
    (by intro t ht; cases ht)
    rfl

/-! ## C8 — clone retry policy -/

theorem retryFrom_spec (retries wait : Nat) (fn : Nat → Option Str) :
    ∀ k i, retries + 1 - i ≤ k → i ≤ retries →
      (retryFrom retries wait fn i).2 ≤ retries + 1
      ∧ i < (retryFrom retries wait fn i).2
      ∧ ((retryFrom retries wait fn i).1 = none ↔
          ∃ j, i ≤ j ∧ j < (retryFrom retries wait fn i).2 ∧ fn j = none) := by
  intro k
  induction k with
  | zero => intro i h1 h2; omega
  | succ k ih =>
    intro i h1 h2
    rcases hfn : fn i with _ | e
    · have hr : retryFrom retries wait fn i = (none, i + 1) := by
        rw [retryFrom, hfn]
      rw [hr]
      refine ⟨by omega, by omega, ?_⟩
      constructor
      · intro _
        exact ⟨i, le_refl i, by omega, hfn⟩
      · intro _
        rfl
    · by_cases hle : retries ≤ i
      · have hr : retryFrom retries wait fn i = (some e, i + 1) := by
          rw [retryFrom, hfn]
          simp [hle]
        rw [hr]
        refine ⟨by omega, by omega, ?_⟩
        constructor
        · intro hcontra
          cases hcontra
        · rintro ⟨j, hij, hji, hj⟩
          have : j = i := by omega
          subst this
          rw [hfn] at hj
          cases hj
      · have hr : retryFrom retries wait fn i = retryFrom retries wait fn (i + 1) := by
          rw [retryFrom, hfn]
          simp [hle]
        obtain ⟨c1, c2, c3⟩ := ih (i + 1) (by omega) (by omega)
        rw [hr]
        refine ⟨c1, by omega, ?_⟩
        rw [c3]
        constructor
        · rintro ⟨j, hij, hji, hj⟩
          exact ⟨j, by omega, hji, hj⟩
        · rintro ⟨j, hij, hji, hj⟩
          rcases Nat.eq_or_lt_of_le hij with rfl | hlt
          · rw [hfn] at hj
            cases hj
          · exact ⟨j, by omega, hji, hj⟩

theorem retryClone_eq_retryFrom (retries wait : Nat) (env : CloneEnv) :
    ∀ k i, retries + 1 - i ≤ k →
      (retryClone retries env i).1 =
        (retryFrom retries wait (fun j => (cloneStep env j).1) i).1 := by
  intro k
  induction k with
  | zero =>
    intro i h1
    have hle : retries ≤ i := by omega
    rcases hcs : cloneStep env i with ⟨r, t⟩
    rw [retryClone, retryFrom, hcs]
    cases r with
    | none => rfl
    | some e => simp [hcs, hle]
  | succ k ih =>
    intro i h1
    rcases hcs : cloneStep env i with ⟨r, t⟩
    rw [retryClone, retryFrom, hcs]
    cases r with
    | none => rfl
    | some e =>
      by_cases hle : retries ≤ i
      · simp [hcs, hle]
      · simp only [hcs, hle, if_false]
        exact ih (i + 1) (by omega)

theorem retryClone_one (env : CloneEnv) :
    retryClone 1 env 0 =
      match cloneStep env 0 with
      | (none, t) => (none, t)
      | (some _, t) =>
        match cloneStep env 1 with
        | (none, t2) => (none, t ++ t2)
        | (some e, t2) => (some e, t ++ t2) := by
  rcases h0 : cloneStep env 0 with ⟨r0, t0⟩
  rw [retryClone, h0]
  cases r0 with
  | none => rfl
  | some e0 =>
    have : ¬ (1 ≤ (0 : Nat)) := by omega
    simp only [this, if_false]
    rcases h1 : cloneStep env 1 with ⟨r1, t1⟩
    rw [retryClone, h1]
    cases r1 with
    | none => rfl
    | some e1 => simp

/-- C8: `retry(n, wait, fn)` invokes `fn` at most `n+1` times and succeeds
exactly when one of the invocations it makes returns nil; `cloneRepository`
does nothing when the head probe succeeds, aborts with any head-probe error
other than "no repository present", and on "no repository present" runs the
clean-and-clone closure under `retry 1` — the instrumented closure agrees
with `retry` — making at most two clone attempts, each immediately preceded
by a full directory clean, succeeding iff one of the two attempts succeeds,
and wrapping the last error as the fatal clone failure when both fail. -/
theorem cloneRepository_retry_spec (retries wait : Nat) (fn : Nat → Option Str)
    (env : CloneEnv) :
    ((retry retries wait fn).2 ≤ retries + 1)
    ∧ ((retry retries wait fn).1 = none ↔
        ∃ j, j < (retry retries wait fn).2 ∧ fn j = none)
    ∧ (∀ i, (retryClone retries env i).1 =
        (retryFrom retries wait (fun j => (cloneStep env j).1) i).1)
    ∧ (env.head = none → cloneRepository env = (.ok (), []))
    ∧ (∀ m, env.head = some (HeadErr.other m) → cloneRepository env = (.error m, []))
    ∧ (env.head = some HeadErr.noGitRepository →
        countCloneAttempts (cloneRepository env).2 ≤ 2
        ∧ cleanPrecedesClone (cloneRepository env).2
        ∧ ((cloneRepository env).1 = .ok () ↔
            ((cloneStep env 0).1 = none ∨ (cloneStep env 1).1 = none))
        ∧ (∀ e, (cloneStep env 0).1 ≠ none → (cloneStep env 1).1 = some e →
            (cloneRepository env).1 =
              .error ("failed to clone repository: ".data ++ e))) := by
  obtain ⟨a1, a2, a3⟩ := retryFrom_spec retries wait fn (retries + 1) 0 (by omega) (by omega)
  refine ⟨a1, ?_, ?_, ?_, ?_, ?_⟩
  · simp only [retry]
    rw [a3]
    constructor
    · rintro ⟨j, _, hj2, hj3⟩
      exact ⟨j, hj2, hj3⟩
    · rintro ⟨j, hj2, hj3⟩
      exact ⟨j, by omega, hj2, hj3⟩
  · intro i
    exact retryClone_eq_retryFrom retries wait env (retries + 1 - i) i (by omega)
  · intro hhead
    simp [cloneRepository, hhead]
  · intro m hhead
    simp [cloneRepository, hhead]
  · intro hhead
    have hone := retryClone_one env
    rcases hc0 : env.clean 0 with _ | e0
    · -- first clean succeeds
      rcases hl0 : env.clone 0 with _ | f0
      · -- first clone succeeds
        have hs0 : cloneStep env 0 = (none, [Action.cleanDir 0, Action.cloneAttempt 0]) := by
          simp [cloneStep, hc0, hl0]
        have hcr : cloneRepository env =
            (.ok (), [Action.cleanDir 0, Action.cloneAttempt 0]) := by
          rw [hs0] at hone
          simp [cloneRepository, hhead, hone]
        have hres : (cloneRepository env).1 = .ok () := by rw [hcr]
        have htr : (cloneRepository env).2 =
            [Action.cleanDir 0, Action.cloneAttempt 0] := by rw [hcr]
        refine ⟨by rw [htr]; decide, ?_, ?_, ?_⟩
        · rw [htr]
          intro i hi
          simp at hi
          subst hi
          exact ⟨[], [], rfl⟩
        · rw [hres]
          simp [hs0]
        · intro e hne _
          exact absurd (by rw [hs0]) hne
      · -- first clone fails; a retry happens
        have hs0 : cloneStep env 0 =
            (some f0, [Action.cleanDir 0, Action.cloneAttempt 0]) := by
          simp [cloneStep, hc0, hl0]
        rcases hc1 : env.clean 1 with _ | e1
        · -- second clean succeeds
          rcases hl1 : env.clone 1 with _ | f1
          · -- retry clone succeeds
            have hs1 : cloneStep env 1 =
                (none, [Action.cleanDir 1, Action.cloneAttempt 1]) := by
              simp [cloneStep, hc1, hl1]
            have hcr : cloneRepository env =
                (.ok (), [Action.cleanDir 0, Action.cloneAttempt 0,
                  Action.cleanDir 1, Action.cloneAttempt 1]) := by
              rw [hs0, hs1] at hone
              simp [cloneRepository, hhead, hone]
            have hres : (cloneRepository env).1 = .ok () := by rw [hcr]
            have htr : (cloneRepository env).2 =
                [Action.cleanDir 0, Action.cloneAttempt 0,
                 Action.cleanDir 1, Action.cloneAttempt 1] := by rw [hcr]
            refine ⟨by rw [htr]; decide, ?_, ?_, ?_⟩
            · rw [htr]
              intro i hi
              simp at hi
              rcases hi with rfl | rfl
              · exact ⟨[], [Action.cleanDir 1, Action.cloneAttempt 1], rfl⟩
              · exact ⟨[Action.cleanDir 0, Action.cloneAttempt 0], [], rfl⟩
            · rw [hres]
              simp [hs0, hs1]
            · intro e _ he
              rw [hs1] at he
              simp at he
          · -- retry clone fails
            have hs1 : cloneStep env 1 =
                (some f1, [Action.cleanDir 1, Action.cloneAttempt 1]) := by
              simp [cloneStep, hc1, hl1]
            have hcr : cloneRepository env =
                (.error ("failed to clone repository: ".data ++ f1),
                 [Action.cleanDir 0, Action.cloneAttempt 0,
                  Action.cleanDir 1, Action.cloneAttempt 1]) := by
              rw [hs0, hs1] at hone
              simp [cloneRepository, hhead, hone]
            have hres : (cloneRepository env).1 =
                .error ("failed to clone repository: ".data ++ f1) := by rw [hcr]
            have htr : (cloneRepository env).2 =
                [Action.cleanDir 0, Action.cloneAttempt 0,
                 Action.cleanDir 1, Action.cloneAttempt 1] := by rw [hcr]
            refine ⟨by rw [htr]; decide, ?_, ?_, ?_⟩
            · rw [htr]
              intro i hi
              simp at hi
              rcases hi with rfl | rfl
              · exact ⟨[], [Action.cleanDir 1, Action.cloneAttempt 1], rfl⟩
              · exact ⟨[Action.cleanDir 0, Action.cloneAttempt 0], [], rfl⟩
            · rw [hres]
              simp [hs0, hs1]
            · intro e _ he
              have he2 : some f1 = some e := by rw [hs1] at he; exact he
              cases Option.some.inj he2
              exact hres
        · -- second clean fails
          have hs1 : cloneStep env 1 =
              (some ("failed to clean git repository directory: ".data ++ e1),
               [Action.cleanDir 1]) := by
            simp [cloneStep, hc1]
          have hcr : cloneRepository env =
              (.error ("failed to clone repository: ".data ++
                ("failed to clean git repository directory: ".data ++ e1)),
               [Action.cleanDir 0, Action.cloneAttempt 0, Action.cleanDir 1]) := by
            rw [hs0, hs1] at hone
            simp [cloneRepository, hhead, hone]
          have hres : (cloneRepository env).1 =
              .error ("failed to clone repository: ".data ++
                ("failed to clean git repository directory: ".data ++ e1)) := by rw [hcr]
          have htr : (cloneRepository env).2 =
              [Action.cleanDir 0, Action.cloneAttempt 0, Action.cleanDir 1] := by rw [hcr]
          refine ⟨by rw [htr]; decide, ?_, ?_, ?_⟩
          · rw [htr]
            intro i hi
            simp at hi
            subst hi
            exact ⟨[], [Action.cleanDir 1], rfl⟩
          · rw [hres]
            simp [hs0, hs1]
          · intro e _ he
            have he2 : some ("failed to clean git repository directory: ".data ++ e1)
                = some e := by rw [hs1] at he; exact he
            cases Option.some.inj he2
            exact hres
    · -- first clean fails; a retry happens
      have hs0 : cloneStep env 0 =
          (some ("failed to clean git repository directory: ".data ++ e0),
           [Action.cleanDir 0]) := by
        simp [cloneStep, hc0]
      rcases hc1 : env.clean 1 with _ | e1
      · rcases hl1 : env.clone 1 with _ | f1
        · have hs1 : cloneStep env 1 =
              (none, [Action.cleanDir 1, Action.cloneAttempt 1]) := by
            simp [cloneStep, hc1, hl1]
          have hcr : cloneRepository env =
              (.ok (), [Action.cleanDir 0, Action.cleanDir 1, Action.cloneAttempt 1]) := by
            rw [hs0, hs1] at hone
            simp [cloneRepository, hhead, hone]
          have hres : (cloneRepository env).1 = .ok () := by rw [hcr]
          have htr : (cloneRepository env).2 =
              [Action.cleanDir 0, Action.cleanDir 1, Action.cloneAttempt 1] := by rw [hcr]
          refine ⟨by rw [htr]; decide, ?_, ?_, ?_⟩
          · rw [htr]
            intro i hi
            simp at hi
            subst hi
            exact ⟨[Action.cleanDir 0], [], rfl⟩
          · rw [hres]
            simp [hs0, hs1]
          · intro e _ he
            rw [hs1] at he
            simp at he
        · have hs1 : cloneStep env 1 =
              (some f1, [Action.cleanDir 1, Action.cloneAttempt 1]) := by
            simp [cloneStep, hc1, hl1]
          have hcr : cloneRepository env =
              (.error ("failed to clone repository: ".data ++ f1),
               [Action.cleanDir 0, Action.cleanDir 1, Action.cloneAttempt 1]) := by
            rw [hs0, hs1] at hone
            simp [cloneRepository, hhead, hone]
          have hres : (cloneRepository env).1 =
              .error ("failed to clone repository: ".data ++ f1) := by rw [hcr]
          have htr : (cloneRepository env).2 =
              [Action.cleanDir 0, Action.cleanDir 1, Action.cloneAttempt 1] := by rw [hcr]
          refine ⟨by rw [htr]; decide, ?_, ?_, ?_⟩
          · rw [htr]
            intro i hi
            simp at hi
            subst hi
            exact ⟨[Action.cleanDir 0], [], rfl⟩
          · rw [hres]
            simp [hs0, hs1]
          · intro e _ he
            have he2 : some f1 = some e := by rw [hs1] at he; exact he
            cases Option.some.inj he2
            exact hres
      · have hs1 : cloneStep env 1 =
            (some ("failed to clean git repository directory: ".data ++ e1),
             [Action.cleanDir 1]) := by
          simp [cloneStep, hc1]
        have hcr : cloneRepository env =
            (.error ("failed to clone repository: ".data ++
              ("failed to clean git repository directory: ".data ++ e1)),
             [Action.cleanDir 0, Action.cleanDir 1]) := by
          rw [hs0, hs1] at hone
          simp [cloneRepository, hhead, hone]
        have hres : (cloneRepository env).1 =
            .error ("failed to clone repository: ".data ++
              ("failed to clean git repository directory: ".data ++ e1)) := by rw [hcr]
        have htr : (cloneRepository env).2 =
            [Action.cleanDir 0, Action.cleanDir 1] := by rw [hcr]
        refine ⟨by rw [htr]; decide, ?_, ?_, ?_⟩
        · rw [htr]
          intro i hi
          simp at hi
        · rw [hres]
          simp [hs0, hs1]
        · intro e _ he
          have he2 : some ("failed to clean git repository directory: ".data ++ e1)
              = some e := by rw [hs1] at he; exact he
          cases Option.some.inj he2
          exact hres

/-- C8 witness: the spec scenario — no repository present, the first clone
attempt fails transiently, the retry succeeds — makes `cloneRepository`
succeed. -/
theorem cloneRepository_retry_spec_witness :
    (cloneRepository envCloneRetryScenario).1 = .ok () := by
  have h := (cloneRepository_retry_spec 1 2 (fun _ => none) envCloneRetryScenario).2.2.2.2.2
    rfl
  exact h.2.2.1.mpr (Or.inr rfl)

/-! ## C5 — missing-resource precondition -/

/-- C5 counterexample: a bundle in which the `ocm-config` resource is PRESENT
but its content is empty passes the nil-check (a present, zero-length byte
stream is non-nil), so `Install` does NOT fail with the missing-resource
error: it fails later, when the config decoder — which reports `EOF` on an
empty document — rejects it, wrapped as the decode error.  The failure still
precedes any git operation (the trace is empty), but its identity refutes
the claimed `MissingRequiredResource` for the "or empty" case. -/
theorem Install_empty_config_not_rejected_cex :
    Install envEmptyConfig "flux".data "v0.1.x".data "flux".data
      = some (.error "failed to decode config data: EOF".data, [])
    ∧ "failed to decode config data: EOF".data
        ≠ "flux or ocm-config resource not found".data := by
  exact ⟨rfl, by decide⟩

/-- C5 (amended): when the extracted primary manifest or the `ocm-config`
document is MISSING (nil — no resource of that name was extracted), `Install`
fails with the missing-resource error `"flux or ocm-config resource not
found"` and its action trace is empty: no git operation (clone, commit, push)
has been performed.  A PRESENT but empty `ocm-config` document instead
passes the nil-check and fails at config decoding (the external decoder
rejects an empty document), with the wrapped decode error and likewise an
empty action trace — still before any git operation, but not with the
missing-resource error. -/
theorem Install_missing_resource_fails_before_git (env : InstallEnv V CV)
    (cn ver comp : Str) (cv : CV) (res : Resources)
    (h1 : getComponentVersion env.lib env.repo cn ver = .ok cv)
    (h2 : getResources (env.getRes cv) comp = some (.ok res)) :
    (res.componentResource = none ∨ res.ocmConfig = none →
      Install env cn ver comp
        = some (.error "flux or ocm-config resource not found".data, []))
    ∧ (∀ compRes kusImages e,
        res.componentResource = some compRes → res.ocmConfig = some [] →
        env.generateKustomization compRes [] = .ok kusImages →
        env.decode [] = .error e →
        Install env cn ver comp
          = some (.error ("failed to decode config data: ".data ++ e), [])) := by
  constructor
  · intro h3
    rcases res with ⟨cr, oc, ir, cl⟩
    simp only at h3
    rcases h3 with h | h
    · subst h
      cases oc <;> simp [Install, h1, h2]
    · subst h
      cases cr <;> simp [Install, h1, h2]
  · intro compRes kusImages e h3 h4 h5 h6
    simp [Install, h1, h2, h3, h4, h5, unMarshallConfig, h6]

/-- C5 witness: a bundle with no resources at all makes `Install` fail with
the missing-resource error before any git action, and the present-but-empty
config bundle fails at decoding, also before any git action, both at
concrete inputs. -/
theorem Install_missing_resource_fails_before_git_witness :
    Install envMissingConfig "flux".data "v0.1.x".data "flux".data
      = some (.error "flux or ocm-config resource not found".data, [])
    ∧ Install envEmptyConfig "flux".data "v0.1.x".data "flux".data
      = some (.error "failed to decode config data: EOF".data, []) := by
  constructor
  · exact (Install_missing_resource_fails_before_git envMissingConfig
      "flux".data "v0.1.x".data "flux".data "v0.1.0".data
      ⟨none, none, [], []⟩ rfl rfl).1 (Or.inl rfl)
  · have h := (Install_missing_resource_fails_before_git envEmptyConfig
      "flux".data "v0.1.x".data "flux".data "v0.1.0".data
      ⟨some "manifest-bytes".data, some [], [], []⟩ rfl rfl).2
      "manifest-bytes".data [] "EOF".data rfl rfl rfl rfl
    exact h.trans (by rfl)

/-! ## C7 — health-check aggregation -/

/-- C7: in every `Install` invocation that reaches the health phase (all
prior steps succeeded), both health checks appear in the trace — a failure of
the kustomization check does not skip the components check — and the result
is success exactly when both checks pass; failures are joined: when both
fail the single returned error carries both messages, when one fails its
message is returned, always under the health wrapper. -/
theorem Install_health_checks_aggregated (env : InstallEnv V CV)
    (cn ver comp : Str) (cv : CV) (res : Resources) (compRes ocmCfg : Str)
    (kusImages : List Image) (rules : List LocalizationRule) (rendered : Str)
    (h1 : getComponentVersion env.lib env.repo cn ver = .ok cv)
    (h2 : getResources (env.getRes cv) comp = some (.ok res))
    (h3 : res.componentResource = some compRes)
    (h4 : res.ocmConfig = some ocmCfg)
    (h5 : env.generateKustomization compRes ocmCfg = .ok kusImages)
    (h6 : env.decode ocmCfg = .ok rules)
    (h7 : env.build (generateGOTKComponentImages env.defaultFluxHost rules
        res.imagesResources kusImages) = .ok rendered)
    (h8 : (reconcileComponents env).1 = .ok ())
    (h9 : env.reconcileSourceSecret = none)
    (h10 : env.reconcileSyncConfig = none) :
    ∃ r, Install env cn ver comp = some (r, (reconcileComponents env).2 ++
        [Action.reconcileSourceSecret, Action.reconcileSyncConfig,
         Action.healthKustomization, Action.healthComponents])
      ∧ Action.healthKustomization ∈ (reconcileComponents env).2 ++
          [Action.reconcileSourceSecret, Action.reconcileSyncConfig,
           Action.healthKustomization, Action.healthComponents]
      ∧ Action.healthComponents ∈ (reconcileComponents env).2 ++
          [Action.reconcileSourceSecret, Action.reconcileSyncConfig,
           Action.healthKustomization, Action.healthComponents]
      ∧ (r = .ok () ↔ (env.healthKustomization = none ∧ env.healthComponents = none))
      ∧ (∀ e1 e2, env.healthKustomization = some e1 → env.healthComponents = some e2 →
          r = .error ("failed to report health, please try again later: ".data ++
            (e1 ++ '\n' :: e2)))
      ∧ (∀ e1, env.healthKustomization = some e1 → env.healthComponents = none →
          r = .error ("failed to report health, please try again later: ".data ++ e1))
      ∧ (∀ e2, env.healthKustomization = none → env.healthComponents = some e2 →
          r = .error ("failed to report health, please try again later: ".data ++ e2)) := by
  rcases hrc : reconcileComponents env with ⟨r0, t0⟩
  rw [hrc] at h8
  simp only at h8
  subst h8
  rcases hk : env.healthKustomization with _ | e1 <;>
    rcases hc : env.healthComponents with _ | e2 <;>
      simp only [Install, h1, h2, h3, h4, h5, unMarshallConfig, h6,
        generateGOTKComponent, h7, hrc, h9, h10, hk, hc, joinErr] <;>
      exact ⟨_, rfl, by simp, by simp, by simp [hk, hc], by simp [hk, hc],
        by simp [hk, hc], by simp [hk, hc]⟩

/-- C7 witness: the spec scenario — the sync-object (kustomization) health
check times out while the components health check succeeds — still surfaces
the timeout in the returned error, after both checks ran. -/
theorem Install_health_checks_aggregated_witness :
    Install envHealthScenario "flux".data "v0.1.x".data "flux".data
      = some (.error ("failed to report health, please try again later: ".data ++
          "kustomization health check timed out".data),
        [Action.commit, Action.push, Action.reconcileSourceSecret,
         Action.reconcileSyncConfig, Action.healthKustomization,
         Action.healthComponents]) := by
  obtain ⟨r, heq, hm1, hm2, hiff, hboth, hfirst, hsecond⟩ :=
    Install_health_checks_aggregated envHealthScenario "flux".data "v0.1.x".data
      "flux".data "v0.1.0".data
      ⟨some "manifest-bytes".data, some "config-bytes".data, [], []⟩
      "manifest-bytes".data "config-bytes".data [] [] []
      rfl rfl rfl rfl rfl rfl rfl rfl rfl rfl
  have hr := hfirst "kustomization health check timed out".data rfl rfl
  rw [hr] at heq
  exact heq.trans (by rfl)

end MPAS
